import Mathlib

/-!
Verification of the commitment-based fair random number protocol and dice
abstraction implemented in `task3.py`.

Shallow embedding conventions:
* Python `int` is `Int`; Python `%` (sign of the divisor) is `Int.fmod`.
* Python functions that may raise return `Except PyError α`; every `raise`
  site in the source is an explicit `Except.error`.
* Randomness (`secrets.randbelow`, `secrets.token_bytes`) is modelled by
  universally quantified oracle inputs: a draw `r : Nat` consumed by
  `randbelow`, and a byte sequence `key : List Nat` for `generate_key`.
  `secrets.randbelow n` raises `ValueError` for `n <= 0` and otherwise
  returns some value in `[0, n)`; the model realises that contract as
  `r % n`.
* The HMAC-SHA3-256 hex digest primitive (`hmac.new(...).hexdigest()`) is a
  deterministic library function; it is modelled as an explicit function
  parameter `hexdigest : List Nat → String → String`, with the source's
  trailing `.upper()` kept explicit in `calculate_hmac`.
-/

namespace Task3

/-- Equality of `Except` results is decidable when both components are. -/
instance exceptDecEq {ε α : Type} [DecidableEq ε] [DecidableEq α] :
    DecidableEq (Except ε α) := fun x y =>
  match x, y with
  | Except.error a, Except.error b =>
      if h : a = b then isTrue (by rw [h]) else isFalse (by simp [h])
  | Except.error _, Except.ok _ => isFalse (by simp)
  | Except.ok _, Except.error _ => isFalse (by simp)
  | Except.ok a, Except.ok b =>
      if h : a = b then isTrue (by rw [h]) else isFalse (by simp [h])

/-- The Python exceptions that appear in `task3.py` (all raises there are
`ValueError`; `IndexError` is what an out-of-bounds list access would raise). -/
inductive PyError where
  | valueError (msg : String)
  | indexError (msg : String)
  | zeroDivisionError (msg : String)
deriving DecidableEq, Repr

/-- A runtime Python value, as far as `Dice.__init__` can observe it: the
constructor is dynamically typed, so a faces list may hold non-integers. -/
inductive PyVal where
  | int (n : Int)
  | str (s : String)
deriving DecidableEq, Repr

/-- Tests whether a runtime value is a Python integer. -/
def is_int_val : PyVal → Bool
  | PyVal.int _ => true
  | _ => false

/-- `Dice`: holds `self.faces`, the list of integer face values
(src/task3.py lines 10-28). -/
structure Dice where
  faces : List Int
deriving DecidableEq, Repr

/-- `Dice.__init__` (src/task3.py lines 13-16), at Python's dynamic-typing
level: the body checks only `len(faces) != 6` and then stores the list
unchanged; no integrality check is performed on the elements. -/
def dice_init (faces : List PyVal) : Except PyError (List PyVal) :=
  if faces.length ≠ 6 then
    Except.error (PyError.valueError "Dice must have exactly 6 faces")
  else
    Except.ok faces

/-- `Dice.get_face_value` (src/task3.py lines 18-22): raises `ValueError`
unless `0 <= index <= 5`, then returns `self.faces[index]`. -/
def get_face_value (d : Dice) (index : Int) : Except PyError Int :=
  if 0 ≤ index ∧ index ≤ 5 then
    match d.faces[index.toNat]? with
    | some v => Except.ok v
    | none => Except.error (PyError.indexError "list index out of range")
  else
    Except.error (PyError.valueError "Face index must be between 0 and 5")

/-- `secrets.randbelow` as documented by the standard library: raises
`ValueError` when the exclusive upper bound is not positive, otherwise
returns a value in `[0, n)` (here determined by the oracle draw `r`). -/
def randbelow (r : Nat) (n : Int) : Except PyError Int :=
  if n ≤ 0 then
    Except.error (PyError.valueError "Upper bound must be positive.")
  else
    Except.ok ((r % n.toNat : Nat) : Int)

/-- `SecureRandomGenerator.generate_secure_random` (src/task3.py lines 63-66):
`return secrets.randbelow(max_value + 1)`. -/
def generate_secure_random (r : Nat) (max_value : Int) : Except PyError Int :=
  randbelow r (max_value + 1)

/-- `SecureRandomGenerator.calculate_hmac` (src/task3.py lines 68-71):
`hmac.new(key, message.encode('utf-8'), hashlib.sha3_256).hexdigest().upper()`.
The library digest pipeline up to `hexdigest()` is the abstract deterministic
function `hexdigest`; the source's `.upper()` is kept explicit. -/
def calculate_hmac (hexdigest : List Nat → String → String)
    (key : List Nat) (message : String) : String :=
  (hexdigest key message).toUpper

/-- `FairRandomProtocol.generate_fair_random` (src/task3.py lines 80-91):
draws the computer number, draws a fresh key, computes the HMAC of the
number's decimal string under that key, and returns the triple. -/
def generate_fair_random (hexdigest : List Nat → String → String)
    (r : Nat) (key : List Nat) (max_value : Int) :
    Except PyError (Int × String × List Nat) :=
  match generate_secure_random r max_value with
  | Except.error e => Except.error e
  | Except.ok computer_number =>
      Except.ok (computer_number,
                 calculate_hmac hexdigest key (toString computer_number),
                 key)

/-- `FairRandomProtocol.combine_numbers` (src/task3.py lines 93-95):
`return (computer_number + user_number) % (max_value + 1)` — no validation
of any argument. Python `%` itself raises `ZeroDivisionError` when the
divisor `max_value + 1` is zero, and otherwise returns the floor-modulus
(sign of the divisor), which is `Int.fmod`. -/
def combine_numbers (computer_number user_number max_value : Int) :
    Except PyError Int :=
  if max_value + 1 = 0 then
    Except.error (PyError.zeroDivisionError "integer modulo by zero")
  else
    Except.ok (Int.fmod (computer_number + user_number) (max_value + 1))

/-- Observable protocol events of one commit/reveal round, in the order the
game controller performs them. -/
inductive Event where
  | publishHmac (digest : String)
  | requestNumber
  | receiveNumber (n : Int)
  | revealSecret (n : Int) (key : List Nat)
deriving DecidableEq, Repr

/-- One keystroke accepted by `get_user_choice` (src/task3.py lines 162-168):
`X`, `?`, or a digit; a digit outside the menu is re-prompted. -/
inductive UChoice where
  | exit
  | help
  | num (n : Nat)
deriving DecidableEq, Repr

/-- The input loop shared by `determine_first_player` and `perform_roll`
(src/task3.py lines 189-199 and 277-288): consumes user choices until `X`
(returns early), a valid number (recorded in the trace), or the input is
exhausted (the Python program would block forever on `input()`). -/
def ask_loop (numOptions : Nat) :
    List UChoice → List Event → Option (Option Nat) × List Event
  | [], evs => (none, evs)
  | UChoice.exit :: _, evs => (some none, evs)
  | UChoice.help :: rest, evs => ask_loop numOptions rest evs
  | UChoice.num n :: rest, evs =>
      if n < numOptions then
        (some (some n), evs ++ [Event.receiveNumber (n : Int)])
      else
        ask_loop numOptions rest evs

/-- `DiceGame.determine_first_player` (src/task3.py lines 178-211): commits
over `[0, 1]`, publishes the HMAC, asks for the user's guess, computes the
(unused) combined value, reveals the secret number and key, and returns
whether the computer goes first (`user_number != computer_number`).
`Except.ok (none, evs)` models the run blocking forever on input;
`Except.ok (some false, evs)` is also the `X` early return. -/
def determine_first_player (hexdigest : List Nat → String → String)
    (r : Nat) (key : List Nat) (choices : List UChoice) :
    Except PyError (Option Bool × List Event) :=
  match generate_fair_random hexdigest r key 1 with
  | Except.error e => Except.error e
  | Except.ok (computer_number, hmac_value, k) =>
      let evs0 := [Event.publishHmac hmac_value, Event.requestNumber]
      match ask_loop 2 choices evs0 with
      | (none, evs) => Except.ok (none, evs)
      | (some none, evs) => Except.ok (some false, evs)
      | (some (some un), evs) =>
          match combine_numbers computer_number (un : Int) 1 with
          | Except.error e => Except.error e
          | Except.ok _ =>
              Except.ok (some (decide ((un : Int) ≠ computer_number)),
                         evs ++ [Event.revealSecret computer_number k])

/-- `DiceGame.perform_roll` (src/task3.py lines 266-297): commits over
`[0, 5]`, publishes the HMAC, asks for the user's number, combines, looks
the index up in the dice, then reveals the secret number and key and
returns the face value. `Except.ok (none, evs)` covers both the `X` early
return and blocking forever on input. -/
def perform_roll (hexdigest : List Nat → String → String)
    (r : Nat) (key : List Nat) (dice : Dice) (choices : List UChoice) :
    Except PyError (Option Int × List Event) :=
  match generate_fair_random hexdigest r key 5 with
  | Except.error e => Except.error e
  | Except.ok (computer_number, hmac_value, k) =>
      let evs0 := [Event.publishHmac hmac_value, Event.requestNumber]
      match ask_loop 6 choices evs0 with
      | (none, evs) => Except.ok (none, evs)
      | (some none, evs) => Except.ok (none, evs)
      | (some (some un), evs) =>
          match combine_numbers computer_number (un : Int) 5 with
          | Except.error e => Except.error e
          | Except.ok result_index =>
              match get_face_value dice result_index with
              | Except.error e => Except.error e
              | Except.ok face_value =>
                  Except.ok (some face_value,
                             evs ++ [Event.revealSecret computer_number k])

/-- Event discriminator: the commitment digest is published. -/
def IsPublish : Event → Bool
  | Event.publishHmac _ => true
  | _ => false

/-- Event discriminator: the counterparty's number is requested. -/
def IsRequest : Event → Bool
  | Event.requestNumber => true
  | _ => false

/-- Event discriminator: the counterparty's number is received. -/
def IsReceive : Event → Bool
  | Event.receiveNumber _ => true
  | _ => false

/-- Event discriminator: the committed number and key are revealed. -/
def IsReveal : Event → Bool
  | Event.revealSecret _ _ => true
  | _ => false

/-- Every event satisfying `P` occurs strictly before every event
satisfying `Q` in the trace. -/
def Precedes (P Q : Event → Bool) (evs : List Event) : Prop :=
  ∀ i j : Nat, (evs[i]?.any P = true) → (evs[j]?.any Q = true) → i < j

/-- The commit/reveal temporal discipline of one round: the digest is
published strictly before the number is requested and before it is
received, and the secret is revealed only strictly after the number is
received. -/
def OrderedTrace (evs : List Event) : Prop :=
  Precedes IsPublish IsRequest evs ∧
  Precedes IsPublish IsReceive evs ∧
  Precedes IsReceive IsReveal evs

/-- C1: for every `maxValue >= 0`, the triple `(committedNumber, digest, key)`
returned by `generate_fair_random` satisfies the commitment round-trip:
recomputing `calculate_hmac key (toString committedNumber)` yields exactly
the returned digest. -/
theorem c1_commit_roundtrip (hexdigest : List Nat → String → String)
    (r : Nat) (key : List Nat) (max_value : Int) (hm : 0 ≤ max_value) :
    ∃ n d k, generate_fair_random hexdigest r key max_value = Except.ok (n, d, k) ∧
      calculate_hmac hexdigest k (toString n) = d := by
  have hpos : ¬ (max_value + 1 ≤ 0) := by omega
  refine ⟨((r % (max_value + 1).toNat : Nat) : Int), _, key, ?_, rfl⟩
  simp [generate_fair_random, generate_secure_random, randbelow, hpos]

/-- Witness for C1 at `maxValue = 1` with a concrete digest primitive. -/
theorem c1_commit_roundtrip_witness :
    ∃ n d k, generate_fair_random (fun _ s => s) 1 [7] 1 = Except.ok (n, d, k) ∧
      calculate_hmac (fun _ s => s) k (toString n) = d :=
  c1_commit_roundtrip (fun _ s => s) 1 [7] 1 (by decide)

/-- For `maxValue >= 0`, `combine_numbers` succeeds with a value in
`[0, maxValue]`, for arbitrary integer number arguments. -/
lemma combine_ok_range (c u m : Int) (hm : 0 ≤ m) :
    ∃ v, combine_numbers c u m = Except.ok v ∧ 0 ≤ v ∧ v ≤ m := by
  have hb : (0 : Int) ≤ m + 1 := by omega
  have hpos : (0 : Int) < m + 1 := by omega
  have hz : ¬ (m + 1 = 0) := by omega
  have hf : Int.fmod (c + u) (m + 1) = (c + u) % (m + 1) := Int.fmod_eq_emod _ hb
  refine ⟨(c + u) % (m + 1), by simp [combine_numbers, hz, hf],
    Int.emod_nonneg _ (by omega), ?_⟩
  have := Int.emod_lt_of_pos (c + u) hpos
  omega

/-- C2: for `maxValue >= 0` and both numbers in `[0, maxValue]`,
`combine_numbers` returns `(committedNumber + counterpartyNumber) mod
(maxValue + 1)`, is commutative in its two number arguments, and its result
lies in `[0, maxValue]`. -/
theorem c2_combine_mod_comm_range (c u m : Int) (hm : 0 ≤ m)
    (_hc0 : 0 ≤ c) (_hc1 : c ≤ m) (_hu0 : 0 ≤ u) (_hu1 : u ≤ m) :
    combine_numbers c u m = Except.ok ((c + u) % (m + 1)) ∧
    combine_numbers c u m = combine_numbers u c m ∧
    ∃ v, combine_numbers c u m = Except.ok v ∧ 0 ≤ v ∧ v ≤ m := by
  have hb : (0 : Int) ≤ m + 1 := by omega
  have hz : ¬ (m + 1 = 0) := by omega
  have hf : Int.fmod (c + u) (m + 1) = (c + u) % (m + 1) := Int.fmod_eq_emod _ hb
  exact ⟨by simp [combine_numbers, hz, hf],
    by simp [combine_numbers, hz, Int.add_comm],
    combine_ok_range c u m hm⟩

/-- Witness for C2 at `c = 1, u = 0, m = 1`. -/
theorem c2_combine_mod_comm_range_witness :
    combine_numbers 1 0 1 = Except.ok ((1 + 0) % (1 + 1)) ∧
    combine_numbers 1 0 1 = combine_numbers 0 1 1 ∧
    ∃ v, combine_numbers 1 0 1 = Except.ok v ∧ 0 ≤ v ∧ v ≤ 1 :=
  c2_combine_mod_comm_range 1 0 1 (by decide) (by decide) (by decide) (by decide) (by decide)

/-- C4 counterexample: `combine_numbers` does not fail on out-of-range
input. With `maxValue = 1` and committed number `5` (outside `[0, 1]`) and
counterparty number `7` (outside `[0, 1]`), the call succeeds and returns
`(5 + 7) mod 2 = 0` instead of raising any error. -/
theorem c4_no_validation_counterexample :
    ¬ ((5 : Int) ≤ 1) ∧ ¬ ((7 : Int) ≤ 1) ∧
    combine_numbers 5 7 1 = Except.ok 0 := by
  decide

/-- C4 amended: `combine_numbers` performs no range validation and never
raises `OutOfRangeError`: its only failure is the `ZeroDivisionError` that
Python's `%` itself raises when the divisor `maxValue + 1` is zero (that
is, at `maxValue = -1`); for every `maxValue ≠ -1` and all integer number
arguments — including out-of-range ones — it succeeds and returns
`(committedNumber + counterpartyNumber) mod (maxValue + 1)`; when
`maxValue >= 0` and both numbers lie in `[0, maxValue]`, the result lies
in `[0, maxValue]`. -/
theorem c4_combine_amended (c u m : Int) :
    (m = -1 → combine_numbers c u m =
      Except.error (PyError.zeroDivisionError "integer modulo by zero")) ∧
    (m ≠ -1 → combine_numbers c u m = Except.ok (Int.fmod (c + u) (m + 1))) ∧
    (0 ≤ m → 0 ≤ c → c ≤ m → 0 ≤ u → u ≤ m →
      ∃ v, combine_numbers c u m = Except.ok v ∧ 0 ≤ v ∧ v ≤ m) := by
  refine ⟨fun hm => ?_, fun hm => ?_, fun hm _ _ _ _ => combine_ok_range c u m hm⟩
  · have hz : m + 1 = 0 := by omega
    simp [combine_numbers, hz]
  · have hz : ¬ (m + 1 = 0) := by omega
    simp [combine_numbers, hz]

/-- Witness for the amended C4: the zero-divisor failure at `m = -1` and
the unvalidated success with in-range result at `c = 0, u = 1, m = 1`. -/
theorem c4_combine_amended_witness :
    combine_numbers 0 0 (-1) =
      Except.error (PyError.zeroDivisionError "integer modulo by zero") ∧
    combine_numbers 0 1 1 = Except.ok (Int.fmod (0 + 1) (1 + 1)) ∧
    ∃ v, combine_numbers 0 1 1 = Except.ok v ∧ 0 ≤ v ∧ v ≤ 1 :=
  ⟨(c4_combine_amended 0 0 (-1)).1 (by decide),
   (c4_combine_amended 0 1 1).2.1 (by decide),
   (c4_combine_amended 0 1 1).2.2 (by decide) (by decide) (by decide) (by decide) (by decide)⟩

/-- C5: `generate_secure_random` fails with the range error (`ValueError`
raised by `secrets.randbelow`, the spec's `InvalidRangeError`) exactly for
`maxValue < 0`, and for `maxValue >= 0` returns a value in
`[0, maxValue]`. -/
theorem c5_secure_random_range (r : Nat) (m : Int) :
    (m < 0 → generate_secure_random r m =
      Except.error (PyError.valueError "Upper bound must be positive.")) ∧
    (0 ≤ m → ∃ v, generate_secure_random r m = Except.ok v ∧ 0 ≤ v ∧ v ≤ m) := by
  constructor
  · intro hneg
    have h0 : m + 1 ≤ 0 := by omega
    simp [generate_secure_random, randbelow, h0]
  · intro hm
    have h0 : ¬ (m + 1 ≤ 0) := by omega
    refine ⟨((r % (m + 1).toNat : Nat) : Int), ?_, by positivity, ?_⟩
    · simp [generate_secure_random, randbelow, h0]
    · have hlt : r % (m + 1).toNat < (m + 1).toNat :=
        Nat.mod_lt _ (by omega)
      omega

/-- Witness for C5: error at `maxValue = -1`, in-range success at
`maxValue = 3`. -/
theorem c5_secure_random_range_witness :
    generate_secure_random 5 (-1) =
      Except.error (PyError.valueError "Upper bound must be positive.") ∧
    ∃ v, generate_secure_random 5 3 = Except.ok v ∧ 0 ≤ v ∧ v ≤ 3 :=
  ⟨(c5_secure_random_range 5 (-1)).1 (by decide),
   (c5_secure_random_range 5 3).2 (by decide)⟩

/-- C6: at the `maxValue = 0` boundary, `generate_secure_random 0` always
returns `0`, and `combine_numbers` with `maxValue = 0` always returns `0`
regardless of the two numbers supplied. -/
theorem c6_zero_boundary :
    (∀ r : Nat, generate_secure_random r 0 = Except.ok 0) ∧
    (∀ c u : Int, combine_numbers c u 0 = Except.ok 0) := by
  constructor
  · intro r
    simp [generate_secure_random, randbelow]
  · intro c u
    simp [combine_numbers]

/-- C7: on a dice holding exactly 6 faces, `get_face_value` fails with the
index error (`ValueError` in the source, the spec's `IndexOutOfRangeError`)
exactly when the index is outside `[0, 5]`; for an index in `[0, 5]` it is
a pure lookup returning the face value stored at that index. -/
theorem c7_face_lookup (d : Dice) (h6 : d.faces.length = 6) (i : Int) :
    ((i < 0 ∨ 5 < i) → get_face_value d i =
      Except.error (PyError.valueError "Face index must be between 0 and 5")) ∧
    (0 ≤ i → i ≤ 5 →
      ∃ v, d.faces[i.toNat]? = some v ∧ get_face_value d i = Except.ok v) := by
  constructor
  · intro hout
    have hn : ¬ (0 ≤ i ∧ i ≤ 5) := by omega
    simp [get_face_value, hn]
  · intro h0 h5
    have hin : 0 ≤ i ∧ i ≤ 5 := ⟨h0, h5⟩
    have hlt : i.toNat < d.faces.length := by omega
    have hv : d.faces[i.toNat]? = some (d.faces[i.toNat]) :=
      List.getElem?_eq_getElem hlt
    exact ⟨d.faces[i.toNat], hv, by simp [get_face_value, hin, hv]⟩

/-- Witness for C7 on the dice `[10,20,30,40,50,60]`: index `7` errors,
index `2` returns the stored face. -/
theorem c7_face_lookup_witness :
    get_face_value ⟨[10, 20, 30, 40, 50, 60]⟩ 7 =
      Except.error (PyError.valueError "Face index must be between 0 and 5") ∧
    ∃ v, ([10, 20, 30, 40, 50, 60] : List Int)[Int.toNat 2]? = some v ∧
      get_face_value ⟨[10, 20, 30, 40, 50, 60]⟩ 2 = Except.ok v :=
  ⟨(c7_face_lookup ⟨[10, 20, 30, 40, 50, 60]⟩ (by decide) 7).1 (by decide),
   (c7_face_lookup ⟨[10, 20, 30, 40, 50, 60]⟩ (by decide) 2).2 (by decide) (by decide)⟩

/-- C8 counterexample: `Dice.__init__` accepts a 6-element list whose faces
are not integers — the constructor checks only the length, so the claim
that construction fails when a face is not an integer is false. -/
theorem c8_no_int_check_counterexample :
    dice_init (List.replicate 6 (PyVal.str "a")) =
      Except.ok (List.replicate 6 (PyVal.str "a")) ∧
    is_int_val (PyVal.str "a") = false := by
  decide

/-- C8 amended: `Dice.__init__` fails exactly when the supplied face count
is not 6 (integrality of the faces is not checked there; the command-line
parser rejects non-integers before `Dice` is ever constructed in the
program); a successful construction stores the supplied 6-element list
unchanged, so every constructed dice holds exactly 6 faces. -/
theorem c8_dice_init_amended (faces : List PyVal) :
    (faces.length ≠ 6 → dice_init faces =
      Except.error (PyError.valueError "Dice must have exactly 6 faces")) ∧
    (faces.length = 6 →
      ∃ d, dice_init faces = Except.ok d ∧ d = faces ∧ d.length = 6) := by
  constructor
  · intro h
    simp [dice_init, h]
  · intro h
    exact ⟨faces, by simp [dice_init, h], rfl, h⟩

/-- Witness for the amended C8: a 5-element list is rejected, a 6-element
list is accepted and stored unchanged. -/
theorem c8_dice_init_amended_witness :
    dice_init (List.replicate 5 (PyVal.int 1)) =
      Except.error (PyError.valueError "Dice must have exactly 6 faces") ∧
    ∃ d, dice_init (List.replicate 6 (PyVal.int 1)) = Except.ok d ∧
      d = List.replicate 6 (PyVal.int 1) ∧ d.length = 6 :=
  ⟨(c8_dice_init_amended (List.replicate 5 (PyVal.int 1))).1 (by decide),
   (c8_dice_init_amended (List.replicate 6 (PyVal.int 1))).2 (by decide)⟩

/-- C9: the first-move scenario with `maxValue = 1`, committed number `1`
and counterparty guess `0`: the combined value is `(1 + 0) mod 2 = 1`, the
guess `0` differs from the combined value `1`, and the full
`determine_first_player` run assigns the first move to the committer (the
computer), returning `some true` after publishing the digest, receiving the
guess, and revealing the secret. -/
theorem c9_first_move_scenario :
    combine_numbers 1 0 1 = Except.ok 1 ∧
    (0 : Int) ≠ 1 ∧
    determine_first_player (fun _ s => s) 1 [7] [UChoice.num 0] =
      Except.ok (some true,
        [Event.publishHmac (calculate_hmac (fun _ s => s) [7] (toString (1 : Int))),
         Event.requestNumber,
         Event.receiveNumber 0, Event.revealSecret 1 [7]]) :=
  ⟨rfl, by decide, rfl⟩

/-- `combine_numbers` over `[0, 1]` never hits the zero divisor. -/
lemma combine_one (c u : Int) :
    combine_numbers c u 1 = Except.ok (Int.fmod (c + u) (1 + 1)) := rfl

/-- `combine_numbers` over `[0, 5]` never hits the zero divisor. -/
lemma combine_five (c u : Int) :
    combine_numbers c u 5 = Except.ok (Int.fmod (c + u) (5 + 1)) := rfl

/-- `generate_fair_random` over `[0, 1]` computed on the oracle inputs. -/
lemma gfr_one (hexdigest : List Nat → String → String) (r : Nat) (key : List Nat) :
    generate_fair_random hexdigest r key 1 =
      Except.ok (((r % 2 : Nat) : Int),
        calculate_hmac hexdigest key (toString ((r % 2 : Nat) : Int)), key) := rfl

/-- `generate_fair_random` over `[0, 5]` computed on the oracle inputs. -/
lemma gfr_five (hexdigest : List Nat → String → String) (r : Nat) (key : List Nat) :
    generate_fair_random hexdigest r key 5 =
      Except.ok (((r % 6 : Nat) : Int),
        calculate_hmac hexdigest key (toString ((r % 6 : Nat) : Int)), key) := rfl

/-- The input loop either leaves the trace unchanged (input exhausted or
`X`), or appends exactly one `receiveNumber` event for a valid number. -/
lemma ask_loop_spec (k : Nat) (choices : List UChoice) (evs : List Event) :
    ask_loop k choices evs = (none, evs) ∨
    ask_loop k choices evs = (some none, evs) ∨
    (∃ n : Nat, n < k ∧
      ask_loop k choices evs =
        (some (some n), evs ++ [Event.receiveNumber (n : Int)])) := by
  induction choices with
  | nil => exact Or.inl rfl
  | cons c rest ih =>
    cases c with
    | exit => exact Or.inr (Or.inl rfl)
    | help => exact ih
    | num n =>
      by_cases hk : n < k
      · exact Or.inr (Or.inr ⟨n, hk, by simp [ask_loop, hk]⟩)
      · simpa [ask_loop, hk] using ih

/-- Trace and result characterization of `determine_first_player`: either no
number was received (blocked input or `X`, in which case the result is
`none` or `some false` and nothing was revealed), or a valid guess `n < 2`
was received, the full four-event trace was produced, and the result is
`some (user_number != computer_number)` with `computer_number = r % 2`. -/
lemma dfp_spec (hexdigest : List Nat → String → String) (r : Nat) (key : List Nat)
    (choices : List UChoice) (res : Option Bool) (evs : List Event)
    (h : determine_first_player hexdigest r key choices = Except.ok (res, evs)) :
    (∃ d, evs = [Event.publishHmac d, Event.requestNumber] ∧
      (res = none ∨ res = some false)) ∨
    (∃ n : Nat, n < 2 ∧
      evs = [Event.publishHmac
               (calculate_hmac hexdigest key (toString ((r % 2 : Nat) : Int))),
             Event.requestNumber, Event.receiveNumber (n : Int),
             Event.revealSecret ((r % 2 : Nat) : Int) key] ∧
      res = some (decide ((n : Int) ≠ ((r % 2 : Nat) : Int)))) := by
  rcases ask_loop_spec 2 choices
      [Event.publishHmac
         (calculate_hmac hexdigest key (toString ((r % 2 : Nat) : Int))),
       Event.requestNumber] with hcase | hcase | ⟨n, hn, hcase⟩
  · have hval : determine_first_player hexdigest r key choices =
        Except.ok (none,
          [Event.publishHmac
             (calculate_hmac hexdigest key (toString ((r % 2 : Nat) : Int))),
           Event.requestNumber]) := by
      rw [determine_first_player.eq_def, gfr_one]
      simp only [hcase, combine_numbers]
    rw [hval] at h
    obtain ⟨hres, hevs⟩ := Prod.mk.injEq .. ▸ (Except.ok.inj h)
    exact Or.inl ⟨_, hevs.symm, Or.inl hres.symm⟩
  · have hval : determine_first_player hexdigest r key choices =
        Except.ok (some false,
          [Event.publishHmac
             (calculate_hmac hexdigest key (toString ((r % 2 : Nat) : Int))),
           Event.requestNumber]) := by
      rw [determine_first_player.eq_def, gfr_one]
      simp only [hcase, combine_numbers]
    rw [hval] at h
    obtain ⟨hres, hevs⟩ := Prod.mk.injEq .. ▸ (Except.ok.inj h)
    exact Or.inl ⟨_, hevs.symm, Or.inr hres.symm⟩
  · have hval : determine_first_player hexdigest r key choices =
        Except.ok (some (decide ((n : Int) ≠ ((r % 2 : Nat) : Int))),
          [Event.publishHmac
             (calculate_hmac hexdigest key (toString ((r % 2 : Nat) : Int))),
           Event.requestNumber, Event.receiveNumber (n : Int),
           Event.revealSecret ((r % 2 : Nat) : Int) key]) := by
      rw [determine_first_player.eq_def, gfr_one]
      simp only [hcase, combine_numbers]
      simp
    rw [hval] at h
    obtain ⟨hres, hevs⟩ := Prod.mk.injEq .. ▸ (Except.ok.inj h)
    exact Or.inr ⟨n, hn, hevs.symm, hres.symm⟩

/-- Trace shape of `perform_roll`: either the two-event commit trace (no
number received, nothing revealed) or the full four-event trace. -/
lemma roll_spec (hexdigest : List Nat → String → String) (r : Nat) (key : List Nat)
    (dice : Dice) (choices : List UChoice) (res : Option Int) (evs : List Event)
    (h : perform_roll hexdigest r key dice choices = Except.ok (res, evs)) :
    (∃ d, evs = [Event.publishHmac d, Event.requestNumber]) ∨
    (∃ d n c k,
      evs = [Event.publishHmac d, Event.requestNumber,
             Event.receiveNumber n, Event.revealSecret c k]) := by
  rcases ask_loop_spec 6 choices
      [Event.publishHmac
         (calculate_hmac hexdigest key (toString ((r % 6 : Nat) : Int))),
       Event.requestNumber] with hcase | hcase | ⟨n, hn, hcase⟩
  · have hval : perform_roll hexdigest r key dice choices =
        Except.ok (none,
          [Event.publishHmac
             (calculate_hmac hexdigest key (toString ((r % 6 : Nat) : Int))),
           Event.requestNumber]) := by
      rw [perform_roll.eq_def, gfr_five]
      simp only [hcase]
    rw [hval] at h
    obtain ⟨_, hevs⟩ := Prod.mk.injEq .. ▸ (Except.ok.inj h)
    exact Or.inl ⟨_, hevs.symm⟩
  · have hval : perform_roll hexdigest r key dice choices =
        Except.ok (none,
          [Event.publishHmac
             (calculate_hmac hexdigest key (toString ((r % 6 : Nat) : Int))),
           Event.requestNumber]) := by
      rw [perform_roll.eq_def, gfr_five]
      simp only [hcase]
    rw [hval] at h
    obtain ⟨_, hevs⟩ := Prod.mk.injEq .. ▸ (Except.ok.inj h)
    exact Or.inl ⟨_, hevs.symm⟩
  · rcases hgf : get_face_value dice
        (Int.fmod (((r % 6 : Nat) : Int) + (n : Int)) (5 + 1)) with e | fv
    · have hval : perform_roll hexdigest r key dice choices = Except.error e := by
        rw [perform_roll.eq_def, gfr_five]
        simp only [hcase, combine_five]
        rw [hgf]
      rw [hval] at h
      exact absurd h (by simp)
    · have hval : perform_roll hexdigest r key dice choices =
          Except.ok (some fv,
            [Event.publishHmac
               (calculate_hmac hexdigest key (toString ((r % 6 : Nat) : Int))),
             Event.requestNumber, Event.receiveNumber (n : Int),
             Event.revealSecret ((r % 6 : Nat) : Int) key]) := by
        rw [perform_roll.eq_def, gfr_five]
        simp only [hcase, combine_five]
        rw [hgf]
        simp
      rw [hval] at h
      obtain ⟨_, hevs⟩ := Prod.mk.injEq .. ▸ (Except.ok.inj h)
      exact Or.inr ⟨_, _, _, _, hevs.symm⟩

/-- The two-event commit trace satisfies the temporal discipline. -/
lemma orderedA (d : String) :
    OrderedTrace [Event.publishHmac d, Event.requestNumber] := by
  unfold OrderedTrace Precedes
  refine ⟨?_, ?_, ?_⟩ <;>
    (intro i j hp hq
     rcases i with _ | _ | i <;> rcases j with _ | _ | j <;>
       simp_all [IsPublish, IsRequest, IsReceive, IsReveal])

/-- The full four-event round trace satisfies the temporal discipline. -/
lemma orderedB (d : String) (n : Int) (c : Int) (k : List Nat) :
    OrderedTrace [Event.publishHmac d, Event.requestNumber,
                  Event.receiveNumber n, Event.revealSecret c k] := by
  unfold OrderedTrace Precedes
  refine ⟨?_, ?_, ?_⟩ <;>
    (intro i j hp hq
     rcases i with _ | _ | _ | _ | i <;> rcases j with _ | _ | _ | _ | j <;>
       simp_all [IsPublish, IsRequest, IsReceive, IsReveal])

/-- C3: in every protocol round — the first-move decision and each dice
roll — every trace the game controller can produce publishes the
commitment digest strictly before the counterparty's number is requested
or received, and reveals the committed number and key only strictly after
the counterparty's number is received. -/
theorem c3_commit_before_reveal (hexdigest : List Nat → String → String)
    (r : Nat) (key : List Nat) (dice : Dice) (choices : List UChoice) :
    (∀ res evs, determine_first_player hexdigest r key choices =
        Except.ok (res, evs) → OrderedTrace evs) ∧
    (∀ res evs, perform_roll hexdigest r key dice choices =
        Except.ok (res, evs) → OrderedTrace evs) := by
  constructor
  · intro res evs h
    rcases dfp_spec hexdigest r key choices res evs h with
      ⟨d, hevs, _⟩ | ⟨n, _, hevs, _⟩ <;> rw [hevs]
    · exact orderedA d
    · exact orderedB _ _ _ _
  · intro res evs h
    rcases roll_spec hexdigest r key dice choices res evs h with
      ⟨d, hevs⟩ | ⟨d, n, c, k, hevs⟩ <;> rw [hevs]
    · exact orderedA d
    · exact orderedB _ _ _ _

/-- Witness for C3: the concrete first-move run (guess 0 against committed
1) and the concrete roll run (number 4 against committed 3 on the dice
`[10,20,30,40,50,60]`) both produce temporally ordered traces. -/
theorem c3_commit_before_reveal_witness :
    OrderedTrace [Event.publishHmac (calculate_hmac (fun _ s => s) [7] (toString (1 : Int))),
                  Event.requestNumber, Event.receiveNumber 0,
                  Event.revealSecret 1 [7]] ∧
    OrderedTrace [Event.publishHmac (calculate_hmac (fun _ s => s) [9] (toString (3 : Int))),
                  Event.requestNumber, Event.receiveNumber 4,
                  Event.revealSecret 3 [9]] :=
  ⟨(c3_commit_before_reveal (fun _ s => s) 1 [7] ⟨[10, 20, 30, 40, 50, 60]⟩
      [UChoice.num 0]).1 (some true)
      [Event.publishHmac (calculate_hmac (fun _ s => s) [7] (toString (1 : Int))),
       Event.requestNumber, Event.receiveNumber 0, Event.revealSecret 1 [7]] rfl,
   (c3_commit_before_reveal (fun _ s => s) 3 [9] ⟨[10, 20, 30, 40, 50, 60]⟩
      [UChoice.num 4]).2 (some 20)
      [Event.publishHmac (calculate_hmac (fun _ s => s) [9] (toString (3 : Int))),
       Event.requestNumber, Event.receiveNumber 4, Event.revealSecret 3 [9]] rfl⟩

/-- C10: whenever a `determine_first_player` run completes having received
the user's number `un` and revealed the committed number `cn`, the computer
is assigned the first move exactly when `un ≠ cn` — the decision compares
the guess against the committed number itself, not against the value
`combine_numbers` returned in that step (which determines nothing here). -/
theorem c10_decision_compares_committed (hexdigest : List Nat → String → String)
    (r : Nat) (key : List Nat) (choices : List UChoice) (b : Bool)
    (un cn : Int) (k : List Nat) (evs : List Event)
    (h : determine_first_player hexdigest r key choices = Except.ok (some b, evs))
    (hrecv : Event.receiveNumber un ∈ evs)
    (hrev : Event.revealSecret cn k ∈ evs) :
    (b = true ↔ un ≠ cn) := by
  rcases dfp_spec hexdigest r key choices (some b) evs h with
    ⟨d, hevs, _⟩ | ⟨n, _, hevs, hres⟩
  · rw [hevs] at hrecv
    simp at hrecv
  · rw [hevs] at hrecv hrev
    simp only [List.mem_cons, List.not_mem_nil, or_false] at hrecv hrev
    have hun : un = (n : Int) := by
      rcases hrecv with h1 | h1 | h1 | h1 <;> first
        | (exact (Event.receiveNumber.inj h1))
        | exact absurd h1 (by simp)
    have hcn : cn = ((r % 2 : Nat) : Int) := by
      rcases hrev with h1 | h1 | h1 | h1 <;> first
        | (exact (Event.revealSecret.inj h1).1)
        | exact absurd h1 (by simp)
    have hb : b = decide ((n : Int) ≠ ((r % 2 : Nat) : Int)) := Option.some.inj hres
    rw [hun, hcn, hb]
    simp

/-- Witness for C10: the concrete run with committed number 1 and guess 0
assigns the first move to the computer, and indeed `0 ≠ 1`. -/
theorem c10_decision_compares_committed_witness : (true = true ↔ (0 : Int) ≠ 1) :=
  c10_decision_compares_committed (fun _ s => s) 1 [7] [UChoice.num 0] true 0 1 [7]
    [Event.publishHmac (calculate_hmac (fun _ s => s) [7] (toString (1 : Int))),
     Event.requestNumber, Event.receiveNumber 0, Event.revealSecret 1 [7]]
    rfl (by decide) (by decide)

end Task3
